import Mathlib

/-!
Shallow embedding of the Registration Store from
`src/src/contexts/RegistrationContext.tsx`.

The store keeps an in-memory list of registrations plus a loading flag.
The document database (Firestore collection `registrations`) is modelled
as an association list of key/document pairs.  Asynchronous database
calls are modelled by passing the database value in, together with a
boolean that says whether the call succeeds; a thrown database error
corresponds to that boolean being `false` (the TS code catches every
such error at the store boundary, so the embedded operations are total
and return the resulting store state and database).
-/

/-- Mirrors the `Registration` record of `lib/types`: `checkedInAt` is an
optional field, absent until attendance is marked. -/
structure Registration where
  id : String
  userId : String
  eventId : String
  registrationDate : String
  checkedIn : Bool
  checkedInAt : Option String
deriving DecidableEq, Repr

/-- The identity supplied by the auth provider: `id` and `role`; the role is
a free-form string compared against the literals `"organizer"` and
`"student"` exactly as the TS code does. -/
structure User where
  id : String
  role : String
deriving DecidableEq, Repr

/-- The mutable state owned by the provider: the `registrations` working set
and the `loading` flag (`useState` pair in the source). -/
structure StoreState where
  registrations : List Registration
  loading : Bool
deriving DecidableEq, Repr

/-- The `registrations` Firestore collection: document key paired with the
stored document data. -/
abbrev Db : Type := List (String × Registration)

/-- Mirrors `user?.role`: `none` when no identity is present. -/
def userRole (user : Option User) : Option String :=
  user.map User.role

/-- Result of `getDocs` on the whole collection.  The TS code builds each
record as the spread of `doc.data()` after `id: doc.id`, and every document
written by this store carries its own `id` field, which the spread keeps;
the fetched record is therefore the stored document data. -/
def dbGetAll (db : Db) : List Registration :=
  db.map Prod.snd

/-- Result of `getDocs` on `query(regsCollection, where("userId", "==", uid))`. -/
def dbGetWhere (db : Db) (uid : String) : List Registration :=
  (db.filter fun p => p.2.userId == uid).map Prod.snd

/-- Firestore `setDoc` at a key: full overwrite of the document when the key
exists, creation otherwise. -/
def dbSetDoc (db : Db) (k : String) (v : Registration) : Db :=
  if db.any fun p => p.1 == k then
    db.map fun p => if p.1 == k then (k, v) else p
  else
    db ++ [(k, v)]

/-- The collection after the `updateDoc` merge of `markAttendance`: the
document at the key gets `checkedIn := true` and `checkedInAt := t`, every
other document is untouched. -/
def dbPatched (db : Db) (k t : String) : Db :=
  db.map fun p =>
    if p.1 == k then (p.1, { p.2 with checkedIn := true, checkedInAt := some t }) else p

/-- Firestore `updateDoc` at a key with fields `checkedIn := true` and
`checkedInAt := t`: merges the named fields into the existing document, and
throws (here: `none`) when no document lives at the key. -/
def dbUpdateDoc (db : Db) (k t : String) : Option Db :=
  if db.any fun p => p.1 == k then some (dbPatched db k t) else none

/-- The `fetchRegistrations` callback.  `authLoading` is the identity
provider still resolving; `dbOk` is whether the awaited `getDocs` succeeds.
On failure the catch block only logs, and the `finally` clears `loading`. -/
def fetchRegistrations (authLoading : Bool) (user : Option User) (dbOk : Bool)
    (db : Db) (st : StoreState) : StoreState :=
  if authLoading then st
  else if userRole user = some "organizer" then
    if dbOk then { registrations := dbGetAll db, loading := false }
    else { st with loading := false }
  else
    match user with
    | some u =>
      if u.role = "student" then
        if dbOk then { registrations := dbGetWhere db u.id, loading := false }
        else { st with loading := false }
      else { registrations := [], loading := false }
    | none => { registrations := [], loading := false }

/-- The store state at the moment `fetchRegistrations` issues its awaited
`getDocs` call: `none` when the control flow returns before any network
call (identity still resolving, unknown role, or no identity), otherwise
the state after `setLoading(true)` has run. -/
def fetchStateAtAwait (authLoading : Bool) (user : Option User)
    (st : StoreState) : Option StoreState :=
  if authLoading then none
  else if userRole user = some "organizer" then some { st with loading := true }
  else if userRole user = some "student" then some { st with loading := true }
  else none

/-- Whether `registerForEvent` reaches its `setDoc` call: it returns early
when no identity is present or when the deterministic id is already in the
local working set. -/
def registerIssuesWrite (user : Option User) (eventId : String)
    (st : StoreState) : Bool :=
  match user with
  | none => false
  | some u => !(st.registrations.any fun reg => reg.id == u.id ++ "-" ++ eventId)

/-- The record `registerForEvent` constructs before writing: deterministic
id, owner, target event, `registrationDate` the current time, `checkedIn`
false, and no `checkedInAt`. -/
def newRegistration (u : User) (eventId now : String) : Registration :=
  { id := u.id ++ "-" ++ eventId
    userId := u.id
    eventId := eventId
    registrationDate := now
    checkedIn := false
    checkedInAt := none }

/-- The `registerForEvent` callback.  `now` is `new Date().toISOString()`;
`writeOk` is whether the awaited `setDoc` succeeds, `fetchOk` whether the
follow-up refetch succeeds.  Returns the resulting store state and
database. -/
def registerForEvent (authLoading : Bool) (user : Option User) (eventId : String)
    (now : String) (writeOk fetchOk : Bool) (st : StoreState) (db : Db) :
    StoreState × Db :=
  match user with
  | none => (st, db)
  | some u =>
    let registrationId := u.id ++ "-" ++ eventId
    if st.registrations.any fun reg => reg.id == registrationId then (st, db)
    else
      if writeOk then
        let db2 := dbSetDoc db registrationId (newRegistration u eventId now)
        (fetchRegistrations authLoading user fetchOk db2 st, db2)
      else (st, db)

/-- The `markAttendance` callback.  `updateOk` is whether the awaited
`updateDoc` succeeds when the document exists (a missing document makes
`updateDoc` throw, which the same catch block swallows); organizers then
refetch, every other identity patches the single matching local record. -/
def markAttendance (authLoading : Bool) (user : Option User) (registrationId : String)
    (now : String) (updateOk fetchOk : Bool) (st : StoreState) (db : Db) :
    StoreState × Db :=
  if updateOk then
    match dbUpdateDoc db registrationId now with
    | none => (st, db)
    | some db2 =>
      if userRole user = some "organizer" then
        (fetchRegistrations authLoading user fetchOk db2 st, db2)
      else
        ({ st with
            registrations := st.registrations.map fun reg =>
              if reg.id == registrationId then
                { reg with checkedIn := true, checkedInAt := some now }
              else reg },
          db2)
  else (st, db)

/-- The `userRegistrations` memo: records owned by the current identity,
empty when no identity is present. -/
def userRegistrations (user : Option User) (registrations : List Registration) :
    List Registration :=
  match user with
  | some u => registrations.filter fun reg => reg.userId == u.id
  | none => []

/-- The `isUserRegistered` callback. -/
def isUserRegistered (user : Option User) (registrations : List Registration)
    (eventId : String) : Bool :=
  match user with
  | none => false
  | some _ => (userRegistrations user registrations).any fun reg => reg.eventId == eventId

/-- The `allRegistrations` memo: the full working set for organizers, empty
for everyone else. -/
def allRegistrations (user : Option User) (registrations : List Registration) :
    List Registration :=
  if userRole user = some "organizer" then registrations else []

/-- Well-formedness of the collection: keys are pairwise distinct, and every
stored document carries its own key in its `id` field (every write of this
store has that shape). -/
def DbWF (db : Db) : Prop :=
  (db.map Prod.fst).Nodup ∧ ∀ p ∈ db, p.2.id = p.1

/-- The record-level invariant of section 3 of the design: `checkedIn` is
false exactly when `checkedInAt` is absent. -/
def RegInv (r : Registration) : Prop :=
  r.checkedIn = false ↔ r.checkedInAt = none

instance (r : Registration) : Decidable (RegInv r) := by
  unfold RegInv; infer_instance

/-- Fixture: the registration of user u1 for event e1, as created by the
store. -/
def regU1E1 : Registration :=
  { id := "u1-e1", userId := "u1", eventId := "e1",
    registrationDate := "2024-01-01", checkedIn := false, checkedInAt := none }

/-- Fixture: a student identity. -/
def studentU1 : User := { id := "u1", role := "student" }

/-- Fixture: an organizer identity. -/
def organizerO1 : User := { id := "o1", role := "organizer" }

/-- Fixture: the store state at mount, before any fetch. -/
def stEmpty : StoreState := { registrations := [], loading := true }

/-- Fixture: a store state holding one registration. -/
def stOne : StoreState := { registrations := [regU1E1], loading := false }

/-- Fixture: a database holding one registration document. -/
def dbOne : Db := [("u1-e1", regU1E1)]

/-!
Helper lemmas about the database primitives and the fetch control flow.
-/

lemma filter_key_eq_nil (l : Db) (k : String)
    (h : (l.any fun p => p.1 == k) = false) :
    l.filter (fun p => p.1 == k) = [] := by
  rw [List.filter_eq_nil_iff]
  intro p hp
  exact List.any_eq_false.mp h p hp

lemma map_upsert_of_no_key (l : Db) (k : String) (v : Registration)
    (h : ∀ p ∈ l, p.1 ≠ k) :
    (l.map fun p => if p.1 == k then (k, v) else p) = l := by
  induction l with
  | nil => rfl
  | cons q rest ih =>
    have hq : ¬((q.1 == k) = true) := by
      simpa using h q (List.mem_cons_self _ _)
    rw [List.map_cons, if_neg hq, ih fun p hp => h p (List.mem_cons_of_mem _ hp)]

lemma upsert_map_filter (l : Db) (k : String) (v : Registration)
    (hnd : (l.map Prod.fst).Nodup) (h : (l.any fun p => p.1 == k) = true) :
    ((l.map fun p => if p.1 == k then (k, v) else p).filter fun p => p.1 == k) =
      [(k, v)] := by
  induction l with
  | nil => simp at h
  | cons q rest ih =>
    rw [List.map_cons, List.nodup_cons] at hnd
    by_cases hqk : (q.1 == k) = true
    · have hk : q.1 = k := by simpa using hqk
      have hrest : ∀ p ∈ rest, p.1 ≠ k := by
        intro p hp hpk
        apply hnd.1
        rw [hk, ← hpk]
        exact List.mem_map_of_mem Prod.fst hp
      have hany : (rest.any fun p => p.1 == k) = false :=
        List.any_eq_false.mpr fun p hp => by simpa using hrest p hp
      rw [List.map_cons, if_pos hqk, map_upsert_of_no_key rest k v hrest]
      simp [filter_key_eq_nil rest k hany]
    · have hqkf : (q.1 == k) = false := by simpa using hqk
      have hrest : (rest.any fun p => p.1 == k) = true := by
        rcases List.any_eq_true.mp h with ⟨p, hp, hpk⟩
        rcases List.mem_cons.mp hp with rfl | hp2
        · exact absurd hpk hqk
        · exact List.any_eq_true.mpr ⟨p, hp2, hpk⟩
      rw [List.map_cons, if_neg hqk]
      simpa [hqkf] using ih hnd.2 hrest

lemma dbSetDoc_filter_key (db : Db) (k : String) (v : Registration)
    (hnd : (db.map Prod.fst).Nodup) :
    (dbSetDoc db k v).filter (fun p => p.1 == k) = [(k, v)] := by
  unfold dbSetDoc
  by_cases h : (db.any fun p => p.1 == k) = true
  · rw [if_pos h]
    exact upsert_map_filter db k v hnd h
  · rw [if_neg h, List.filter_append,
      filter_key_eq_nil db k (Bool.not_eq_true _ ▸ h)]
    simp

lemma mem_dbSetDoc_self (db : Db) (k : String) (v : Registration) :
    (k, v) ∈ dbSetDoc db k v := by
  unfold dbSetDoc
  by_cases h : (db.any fun p => p.1 == k) = true
  · rw [if_pos h]
    rcases List.any_eq_true.mp h with ⟨p, hp, hpk⟩
    exact List.mem_map.mpr ⟨p, hp, by simp [hpk]⟩
  · rw [if_neg h]
    simp

lemma mem_dbSetDoc (db : Db) (k : String) (v : Registration) {q}
    (hq : q ∈ dbSetDoc db k v) : q = (k, v) ∨ q ∈ db := by
  unfold dbSetDoc at hq
  by_cases h : (db.any fun p => p.1 == k) = true
  · rw [if_pos h] at hq
    rcases List.mem_map.mp hq with ⟨p, hp, hfp⟩
    by_cases hpk : (p.1 == k) = true
    · left; simp [hpk] at hfp; exact hfp.symm
    · right; simp [hpk] at hfp; exact hfp ▸ hp
  · rw [if_neg h] at hq
    rcases List.mem_append.mp hq with hq2 | hq2
    · exact Or.inr hq2
    · exact Or.inl (by simpa using hq2)

lemma DbWF_dbSetDoc (db : Db) (k : String) (v : Registration)
    (hwf : DbWF db) (hv : v.id = k) : DbWF (dbSetDoc db k v) := by
  obtain ⟨hnd, hid⟩ := hwf
  unfold dbSetDoc
  by_cases h : (db.any fun p => p.1 == k) = true
  · rw [if_pos h]
    constructor
    · rw [List.map_map]
      have hfun :
          (Prod.fst ∘ fun p : String × Registration =>
            if p.1 == k then (k, v) else p) = Prod.fst := by
        funext p
        show (if (p.1 == k) = true then (k, v) else p).1 = p.1
        by_cases hpk : (p.1 == k) = true
        · rw [if_pos hpk]
          exact (show p.1 = k by simpa using hpk).symm
        · rw [if_neg hpk]
      rw [hfun]
      exact hnd
    · intro p hp
      rcases List.mem_map.mp hp with ⟨q, hq, hfq⟩
      by_cases hqk : (q.1 == k) = true
      · simp [hqk] at hfq; rw [← hfq]; exact hv
      · simp [hqk] at hfq; rw [← hfq]; exact hid q hq
  · rw [if_neg h]
    have h2 : ∀ p ∈ db, p.1 ≠ k := by
      intro p hp hpk
      have hfalse := List.any_eq_false.mp (Bool.not_eq_true _ ▸ h) p hp
      rw [hpk] at hfalse
      simp at hfalse
    constructor
    · rw [List.map_append]
      simp only [List.map_cons, List.map_nil]
      rw [List.nodup_append]
      refine ⟨hnd, List.nodup_singleton _, ?_⟩
      intro a ha hb
      rcases List.mem_map.mp ha with ⟨p, hp, rfl⟩
      simp at hb
      exact h2 p hp hb
    · intro p hp
      rcases List.mem_append.mp hp with hp2 | hp2
      · exact hid p hp2
      · simp at hp2; rw [hp2]; exact hv

lemma dbUpdateDoc_eq_some (db : Db) (k t : String)
    (h : (db.any fun p => p.1 == k) = true) :
    dbUpdateDoc db k t = some (dbPatched db k t) := by
  simp [dbUpdateDoc, h]

lemma dbUpdateDoc_eq_none (db : Db) (k t : String)
    (h : (db.any fun p => p.1 == k) = false) :
    dbUpdateDoc db k t = none := by
  simp [dbUpdateDoc, h]

lemma fetchRegistrations_pending (user : Option User) (dbOk : Bool) (db : Db)
    (st : StoreState) : fetchRegistrations true user dbOk db st = st := by
  simp [fetchRegistrations]

lemma fetchRegistrations_organizer (u : User) (h : u.role = "organizer")
    (dbOk : Bool) (db : Db) (st : StoreState) :
    fetchRegistrations false (some u) dbOk db st =
      if dbOk then { registrations := dbGetAll db, loading := false }
      else { st with loading := false } := by
  simp [fetchRegistrations, userRole, h]

lemma fetchRegistrations_student (u : User) (h : u.role = "student")
    (dbOk : Bool) (db : Db) (st : StoreState) :
    fetchRegistrations false (some u) dbOk db st =
      if dbOk then { registrations := dbGetWhere db u.id, loading := false }
      else { st with loading := false } := by
  simp [fetchRegistrations, userRole, h]

lemma fetchRegistrations_otherRole (u : User) (h1 : u.role ≠ "organizer")
    (h2 : u.role ≠ "student") (dbOk : Bool) (db : Db) (st : StoreState) :
    fetchRegistrations false (some u) dbOk db st =
      { registrations := [], loading := false } := by
  simp [fetchRegistrations, userRole, h1, h2]

lemma fetchRegistrations_noUser (dbOk : Bool) (db : Db) (st : StoreState) :
    fetchRegistrations false none dbOk db st =
      { registrations := [], loading := false } := by
  simp [fetchRegistrations, userRole]

lemma fetchRegistrations_loading_false (user : Option User) (dbOk : Bool)
    (db : Db) (st : StoreState) :
    (fetchRegistrations false user dbOk db st).loading = false := by
  rcases user with _ | u
  · rw [fetchRegistrations_noUser]
  · by_cases h1 : u.role = "organizer"
    · rw [fetchRegistrations_organizer u h1]
      by_cases h2 : dbOk = true <;> simp [h2]
    · by_cases h2 : u.role = "student"
      · rw [fetchRegistrations_student u h2]
        by_cases h3 : dbOk = true <;> simp [h3]
      · rw [fetchRegistrations_otherRole u h1 h2]

/-!
Claim theorems.
-/

/-- C1: the fetch/refresh operation scopes its query by the current identity
role: an organizer request replaces the working set with the entire
collection, a student request replaces it with exactly the records whose
`userId` equals the identity id, and any other role or an absent identity
yields the empty working set immediately with no network call issued; on
success the working set is replaced wholesale by the fetched set. -/
theorem fetch_scopes_query_by_role (user : Option User) (db : Db) (st : StoreState) :
    (∀ u, user = some u → u.role = "organizer" →
      (fetchRegistrations false user true db st).registrations = dbGetAll db) ∧
    (∀ u, user = some u → u.role = "student" →
      (fetchRegistrations false user true db st).registrations = dbGetWhere db u.id) ∧
    (∀ u, user = some u → u.role ≠ "organizer" → u.role ≠ "student" →
      ∀ dbOk, fetchRegistrations false user dbOk db st =
          { registrations := [], loading := false } ∧
        fetchStateAtAwait false user st = none) ∧
    (user = none →
      ∀ dbOk, fetchRegistrations false user dbOk db st =
          { registrations := [], loading := false } ∧
        fetchStateAtAwait false user st = none) := by
  refine ⟨?_, ?_, ?_, ?_⟩
  · rintro u rfl h
    rw [fetchRegistrations_organizer u h]
    simp
  · rintro u rfl h
    rw [fetchRegistrations_student u h]
    simp
  · rintro u rfl h1 h2 dbOk
    exact ⟨fetchRegistrations_otherRole u h1 h2 dbOk db st,
      by simp [fetchStateAtAwait, userRole, h1, h2]⟩
  · rintro rfl dbOk
    exact ⟨fetchRegistrations_noUser dbOk db st,
      by simp [fetchStateAtAwait, userRole]⟩

/-- Witness for C1 at concrete inputs: an organizer, a student, an unknown
role and the anonymous viewer. -/
theorem fetch_scopes_query_by_role_witness :
    (fetchRegistrations false (some organizerO1) true dbOne stEmpty).registrations
        = dbGetAll dbOne ∧
    (fetchRegistrations false (some studentU1) true dbOne stEmpty).registrations
        = dbGetWhere dbOne "u1" ∧
    fetchRegistrations false (some { id := "x", role := "admin" }) true dbOne stEmpty
        = { registrations := [], loading := false } ∧
    fetchRegistrations false none true dbOne stEmpty
        = { registrations := [], loading := false } :=
  ⟨(fetch_scopes_query_by_role (some organizerO1) dbOne stEmpty).1 organizerO1 rfl rfl,
   (fetch_scopes_query_by_role (some studentU1) dbOne stEmpty).2.1 studentU1 rfl rfl,
   ((fetch_scopes_query_by_role (some { id := "x", role := "admin" }) dbOne stEmpty).2.2.1
      { id := "x", role := "admin" } rfl (by decide) (by decide) true).1,
   ((fetch_scopes_query_by_role none dbOne stEmpty).2.2.2 rfl true).1⟩

/-- C4: with no identity present, registerForEvent fails the authentication
precondition: it issues no database write and returns with the working set
and the database exactly as before; the condition is only logged, so in the
embedding the call still returns normally instead of raising. -/
theorem registerForEvent_unauthenticated (authLoading : Bool) (eventId now : String)
    (writeOk fetchOk : Bool) (st : StoreState) (db : Db) :
    registerForEvent authLoading none eventId now writeOk fetchOk st db = (st, db) ∧
    registerIssuesWrite none eventId st = false :=
  ⟨rfl, rfl⟩

/-- C5: every database-layer failure is absorbed at the store boundary and
leaves the working set at its prior value: a failed fetch keeps the previous
registrations, a failed create changes neither state nor database, and a
failed attendance update (thrown error or missing target document) changes
neither; no operation re-throws, each returns a defined result. -/
theorem db_failures_leave_state_intact (authLoading : Bool) (user : Option User)
    (eventId registrationId now : String) (fetchOk : Bool) (st : StoreState)
    (db : Db) :
    ((userRole user = some "organizer" ∨ userRole user = some "student") →
      (fetchRegistrations false user false db st).registrations = st.registrations) ∧
    registerForEvent authLoading user eventId now false fetchOk st db = (st, db) ∧
    markAttendance authLoading user registrationId now false fetchOk st db = (st, db) ∧
    ((db.any fun p => p.1 == registrationId) = false →
      markAttendance authLoading user registrationId now true fetchOk st db = (st, db)) := by
  refine ⟨?_, ?_, rfl, ?_⟩
  · intro h
    rcases user with _ | u
    · rcases h with h | h <;> simp [userRole] at h
    · rcases h with h | h
      · have hr : u.role = "organizer" := by simpa [userRole] using h
        rw [fetchRegistrations_organizer u hr]
        simp
      · have hr : u.role = "student" := by simpa [userRole] using h
        rw [fetchRegistrations_student u hr]
        simp
  · rcases user with _ | u
    · rfl
    · by_cases hdup :
          (st.registrations.any fun reg => reg.id == u.id ++ "-" ++ eventId) = true
      · simp [registerForEvent, hdup]
      · simp [registerForEvent, hdup]
  · intro h
    unfold markAttendance
    rw [dbUpdateDoc_eq_none db registrationId now h]
    rfl

/-- Witness for C5: a failed organizer fetch keeps the single stored record,
and marking attendance against an empty database changes nothing. -/
theorem db_failures_leave_state_intact_witness :
    (fetchRegistrations false (some organizerO1) false dbOne stOne).registrations
        = stOne.registrations ∧
    markAttendance false (some studentU1) "u1-e1" "t" true true stOne ([] : Db)
        = (stOne, ([] : Db)) :=
  ⟨(db_failures_leave_state_intact false (some organizerO1) "e1" "u1-e1" "t" true
      stOne dbOne).1 (Or.inl rfl),
   (db_failures_leave_state_intact false (some studentU1) "e1" "u1-e1" "t" true
      stOne ([] : Db)).2.2.2 rfl⟩

/-- C6 counterexample: the claim says the loading flag is false on every exit
path including the skip taken while identity resolution is still pending, but
that skip returns before the try/finally block ever runs, so a store that
mounted with loading = true exits the fetch with loading still true. -/
theorem fetch_pending_skip_keeps_loading_true :
    (fetchRegistrations true (some studentU1) true dbOne
      { registrations := [], loading := true }).loading = true := rfl

/-- C6 amended: once identity resolution has completed, every exit path of
the fetch operation (success, failure, or the immediate skip for an unknown
or absent identity) ends with loading = false, and whenever a network request
is issued the loading flag is true while that request is in flight; the skip
taken while identity resolution is still pending, however, returns with the
store state, and in particular the loading flag, unchanged. -/
theorem fetch_loading_flag_exit_paths (user : Option User) (dbOk : Bool)
    (db : Db) (st : StoreState) :
    (fetchRegistrations false user dbOk db st).loading = false ∧
    (∀ s, fetchStateAtAwait false user st = some s → s.loading = true) ∧
    fetchRegistrations true user dbOk db st = st := by
  refine ⟨fetchRegistrations_loading_false user dbOk db st, ?_,
    fetchRegistrations_pending user dbOk db st⟩
  intro s hs
  have hstep : fetchStateAtAwait false user st = none ∨
      fetchStateAtAwait false user st = some { st with loading := true } := by
    unfold fetchStateAtAwait
    by_cases h1 : userRole user = some "organizer"
    · right; simp [h1]
    · by_cases h2 : userRole user = some "student"
      · right; simp [h1, h2]
      · left; simp [h1, h2]
  rcases hstep with h | h
  · rw [h] at hs
    cases hs
  · rw [h] at hs
    injection hs with h2
    rw [← h2]

/-- Witness for C6 amended: a student fetch ends with loading = false, and
the state snapshot at its network call has loading = true. -/
theorem fetch_loading_flag_exit_paths_witness :
    (fetchRegistrations false (some studentU1) true dbOne stEmpty).loading = false ∧
    ({ stEmpty with loading := true } : StoreState).loading = true :=
  ⟨(fetch_loading_flag_exit_paths (some studentU1) true dbOne stEmpty).1,
   (fetch_loading_flag_exit_paths (some studentU1) true dbOne stEmpty).2.1
     { stEmpty with loading := true } rfl⟩

/-- C8: the derived views enforce role-based visibility: for a student
identity every member of userRegistrations is a member of the working set and
carries the identity id as its userId (and the view is empty with no
identity); for an organizer allRegistrations is the whole working set; for
any other role, and for the anonymous viewer, allRegistrations is empty. -/
theorem derived_views_role_visibility (u : User) (regs : List Registration) :
    (u.role = "student" →
      (∀ r ∈ userRegistrations (some u) regs, r ∈ regs) ∧
      (∀ r ∈ userRegistrations (some u) regs, r.userId = u.id)) ∧
    userRegistrations none regs = [] ∧
    (u.role = "organizer" → allRegistrations (some u) regs = regs) ∧
    (u.role ≠ "organizer" → allRegistrations (some u) regs = []) ∧
    allRegistrations none regs = [] := by
  refine ⟨fun _ => ⟨?_, ?_⟩, rfl, ?_, ?_, ?_⟩
  · intro r hr
    exact (List.mem_filter.mp hr).1
  · intro r hr
    simpa using (List.mem_filter.mp hr).2
  · intro h
    simp [allRegistrations, userRole, h]
  · intro h
    simp [allRegistrations, userRole, h]
  · simp [allRegistrations, userRole]

/-- Witness for C8: the student view of a one-record set is owned by the
student, the organizer sees the full set, the student sees no global set. -/
theorem derived_views_role_visibility_witness :
    (∀ r ∈ userRegistrations (some studentU1) [regU1E1], r.userId = "u1") ∧
    allRegistrations (some organizerO1) [regU1E1] = [regU1E1] ∧
    allRegistrations (some studentU1) [regU1E1] = [] :=
  ⟨((derived_views_role_visibility studentU1 [regU1E1]).1 rfl).2,
   (derived_views_role_visibility organizerO1 [regU1E1]).2.2.1 rfl,
   (derived_views_role_visibility studentU1 [regU1E1]).2.2.2.1 (by decide)⟩

lemma map_patch_of_no_match (l : List Registration) (k : String)
    (f : Registration → Registration)
    (h : (l.any fun r => r.id == k) = false) :
    (l.map fun r => if r.id == k then f r else r) = l := by
  induction l with
  | nil => rfl
  | cons q rest ih =>
    rw [List.any_cons] at h
    rcases Bool.or_eq_false_iff.mp h with ⟨h1, h2⟩
    rw [List.map_cons, if_neg (by simp [h1]), ih h2]

/-- C10: markAttendance imposes no authentication precondition: with no
identity present it still applies the database update to the targeted
document, then takes the local-patch branch, which maps the targeted patch
over the working set, leaves the loading flag untouched, and when no local
record carries the id leaves the working set exactly unchanged;
registerForEvent, by contrast, rejects the same unauthenticated caller
without touching anything. -/
theorem markAttendance_without_identity (authLoading fetchOk : Bool)
    (registrationId now : String) (st : StoreState) (db : Db)
    (hmem : (db.any fun p => p.1 == registrationId) = true) :
    (markAttendance authLoading none registrationId now true fetchOk st db).2 =
      dbPatched db registrationId now ∧
    (markAttendance authLoading none registrationId now true fetchOk st db).1.loading
      = st.loading ∧
    (markAttendance authLoading none registrationId now true fetchOk st db).1.registrations
      = (st.registrations.map fun reg =>
          if reg.id == registrationId then
            { reg with checkedIn := true, checkedInAt := some now }
          else reg) ∧
    ((st.registrations.any fun reg => reg.id == registrationId) = false →
      (markAttendance authLoading none registrationId now true fetchOk st db).1.registrations
        = st.registrations) ∧
    registerForEvent authLoading none registrationId now true fetchOk st db = (st, db) := by
  have hbranch : markAttendance authLoading none registrationId now true fetchOk st db =
      ({ st with
          registrations := st.registrations.map fun reg =>
            if reg.id == registrationId then
              { reg with checkedIn := true, checkedInAt := some now }
            else reg },
        dbPatched db registrationId now) := by
    unfold markAttendance
    rw [dbUpdateDoc_eq_some db registrationId now hmem]
    simp [userRole]
  refine ⟨by rw [hbranch], by rw [hbranch], by rw [hbranch], ?_, rfl⟩
  intro hno
  rw [hbranch]
  exact map_patch_of_no_match st.registrations registrationId _ hno

/-- Witness for C10: with no identity, marking attendance for the one stored
document against an empty working set leaves the working set empty. -/
theorem markAttendance_without_identity_witness :
    (markAttendance false none "u1-e1" "t1" true true stEmpty dbOne).1.registrations
      = stEmpty.registrations :=
  (markAttendance_without_identity false true "u1-e1" "t1" stEmpty dbOne
    (by decide)).2.2.2.1 (by decide)

/-- C3: markAttendance merges checkedIn = true and checkedInAt = now into the
targeted document in the database, then branches on the current identity
role: an organizer gets a full refresh of the working set from the updated
database, while every other identity patches the single matching local record
in place, leaving every other record and the loading flag untouched and
without consulting the fetched data. -/
theorem markAttendance_update_then_resync (authLoading fetchOk : Bool)
    (user : Option User) (registrationId now : String) (st : StoreState) (db : Db)
    (hmem : (db.any fun p => p.1 == registrationId) = true) :
    (∀ p ∈ db, p.1 = registrationId →
      (p.1, { p.2 with checkedIn := true, checkedInAt := some now })
        ∈ (markAttendance authLoading user registrationId now true fetchOk st db).2) ∧
    (∀ p ∈ db, p.1 ≠ registrationId →
      p ∈ (markAttendance authLoading user registrationId now true fetchOk st db).2) ∧
    (userRole user = some "organizer" →
      (markAttendance authLoading user registrationId now true fetchOk st db).1 =
        fetchRegistrations authLoading user fetchOk
          (markAttendance authLoading user registrationId now true fetchOk st db).2 st) ∧
    (userRole user ≠ some "organizer" →
      (markAttendance authLoading user registrationId now true fetchOk st db).1.loading
          = st.loading ∧
      (markAttendance authLoading user registrationId now true fetchOk st db).1.registrations
        = st.registrations.map fun reg =>
            if reg.id == registrationId then
              { reg with checkedIn := true, checkedInAt := some now }
            else reg) := by
  have hsnd : (markAttendance authLoading user registrationId now true fetchOk st db).2 =
      dbPatched db registrationId now := by
    unfold markAttendance
    rw [dbUpdateDoc_eq_some db registrationId now hmem]
    by_cases h : userRole user = some "organizer" <;> simp [h]
  refine ⟨?_, ?_, ?_, ?_⟩
  · intro p hp hpk
    rw [hsnd]
    unfold dbPatched
    refine List.mem_map.mpr ⟨p, hp, ?_⟩
    simp [hpk]
  · intro p hp hpk
    rw [hsnd]
    unfold dbPatched
    refine List.mem_map.mpr ⟨p, hp, ?_⟩
    simp [beq_eq_false_iff_ne.mpr hpk]
  · intro h
    have hfst : (markAttendance authLoading user registrationId now true fetchOk st db).1 =
        fetchRegistrations authLoading user fetchOk (dbPatched db registrationId now) st := by
      unfold markAttendance
      rw [dbUpdateDoc_eq_some db registrationId now hmem]
      simp [h]
    rw [hfst, hsnd]
  · intro h
    have hfst : (markAttendance authLoading user registrationId now true fetchOk st db).1 =
        { st with
            registrations := st.registrations.map fun reg =>
              if reg.id == registrationId then
                { reg with checkedIn := true, checkedInAt := some now }
              else reg } := by
      unfold markAttendance
      rw [dbUpdateDoc_eq_some db registrationId now hmem]
      simp [h]
    rw [hfst]
    exact ⟨rfl, rfl⟩

/-- Witness for C3: an organizer check-in patches the stored document, and a
student check-in of the same document flips the matching local record. -/
theorem markAttendance_update_then_resync_witness :
    ("u1-e1", { regU1E1 with checkedIn := true, checkedInAt := some "t1" })
      ∈ (markAttendance false (some organizerO1) "u1-e1" "t1" true true stOne dbOne).2 ∧
    (markAttendance false (some studentU1) "u1-e1" "t1" true true stOne dbOne).1.registrations
      = stOne.registrations.map fun reg =>
          if reg.id == "u1-e1" then
            { reg with checkedIn := true, checkedInAt := some "t1" }
          else reg :=
  ⟨(markAttendance_update_then_resync false true (some organizerO1) "u1-e1" "t1"
      stOne dbOne (by decide)).1 ("u1-e1", regU1E1) (by decide) rfl,
   ((markAttendance_update_then_resync false true (some studentU1) "u1-e1" "t1"
      stOne dbOne (by decide)).2.2.2 (by decide)).2⟩

/-- C9: on a non-duplicate call, registerForEvent constructs a fresh record
with checkedIn false, no checkedInAt, registrationDate the current time and
the deterministic id, upserts it into the database under that id as key, and
on write success the resulting working set is a full refresh against the
updated database rather than an optimistic local insert. -/
theorem registerForEvent_creates_and_refreshes (authLoading fetchOk : Bool)
    (u : User) (eventId now : String) (st : StoreState) (db : Db)
    (hnew : (st.registrations.any fun reg => reg.id == u.id ++ "-" ++ eventId) = false) :
    (registerForEvent authLoading (some u) eventId now true fetchOk st db).2 =
      dbSetDoc db (u.id ++ "-" ++ eventId) (newRegistration u eventId now) ∧
    (u.id ++ "-" ++ eventId, newRegistration u eventId now)
      ∈ (registerForEvent authLoading (some u) eventId now true fetchOk st db).2 ∧
    (newRegistration u eventId now).checkedIn = false ∧
    (newRegistration u eventId now).checkedInAt = none ∧
    (newRegistration u eventId now).registrationDate = now ∧
    (newRegistration u eventId now).id = u.id ++ "-" ++ eventId ∧
    (registerForEvent authLoading (some u) eventId now true fetchOk st db).1 =
      fetchRegistrations authLoading (some u) fetchOk
        (registerForEvent authLoading (some u) eventId now true fetchOk st db).2 st := by
  have hres : registerForEvent authLoading (some u) eventId now true fetchOk st db =
      (fetchRegistrations authLoading (some u) fetchOk
        (dbSetDoc db (u.id ++ "-" ++ eventId) (newRegistration u eventId now)) st,
       dbSetDoc db (u.id ++ "-" ++ eventId) (newRegistration u eventId now)) := by
    simp [registerForEvent, hnew]
  rw [hres]
  exact ⟨rfl, mem_dbSetDoc_self db _ _, rfl, rfl, rfl, rfl, rfl⟩

/-- Witness for C9: a fresh registration of student u1 for event e1 lands in
an empty database under the key u1-e1. -/
theorem registerForEvent_creates_and_refreshes_witness :
    (registerForEvent false (some studentU1) "e1" "2024-01-01" true true
        stEmpty ([] : Db)).2
      = dbSetDoc ([] : Db) "u1-e1" (newRegistration studentU1 "e1" "2024-01-01") :=
  (registerForEvent_creates_and_refreshes false true studentU1 "e1" "2024-01-01"
    stEmpty ([] : Db) rfl).1

lemma RegInv_patch (r : Registration) (t : String) :
    RegInv { r with checkedIn := true, checkedInAt := some t } := by
  simp [RegInv]

lemma newRegistration_inv (u : User) (eventId now : String) :
    RegInv (newRegistration u eventId now) := by
  simp [RegInv, newRegistration]

lemma dbPatched_inv (db : Db) (k t : String) (hdb : ∀ p ∈ db, RegInv p.2) :
    ∀ p ∈ dbPatched db k t, RegInv p.2 := by
  intro p hp
  rcases List.mem_map.mp hp with ⟨q, hq, rfl⟩
  by_cases hqk : (q.1 == k) = true
  · simp only [if_pos hqk]
    exact RegInv_patch q.2 t
  · simp only [if_neg hqk]
    exact hdb q hq

lemma dbSetDoc_inv (db : Db) (k : String) (v : Registration)
    (hdb : ∀ p ∈ db, RegInv p.2) (hv : RegInv v) :
    ∀ p ∈ dbSetDoc db k v, RegInv p.2 := by
  intro p hp
  rcases mem_dbSetDoc db k v hp with rfl | hp2
  · exact hv
  · exact hdb p hp2

lemma fetchRegistrations_inv (authLoading dbOk : Bool) (user : Option User)
    (db : Db) (st : StoreState)
    (hst : ∀ r ∈ st.registrations, RegInv r) (hdb : ∀ p ∈ db, RegInv p.2) :
    ∀ r ∈ (fetchRegistrations authLoading user dbOk db st).registrations, RegInv r := by
  have hGetAll : ∀ r ∈ dbGetAll db, RegInv r := by
    intro r hr
    rcases List.mem_map.mp hr with ⟨p, hp, rfl⟩
    exact hdb p hp
  have hGetWhere : ∀ uid, ∀ r ∈ dbGetWhere db uid, RegInv r := by
    intro uid r hr
    rcases List.mem_map.mp hr with ⟨p, hp, rfl⟩
    exact hdb p (List.mem_filter.mp hp).1
  cases authLoading with
  | true =>
    rw [fetchRegistrations_pending]
    exact hst
  | false =>
    rcases user with _ | u
    · rw [fetchRegistrations_noUser]
      intro r hr
      exact absurd hr (List.not_mem_nil r)
    · by_cases h1 : u.role = "organizer"
      · rw [fetchRegistrations_organizer u h1]
        cases dbOk with
        | true => rw [if_pos rfl]; exact hGetAll
        | false => rw [if_neg (by simp)]; exact hst
      · by_cases h2 : u.role = "student"
        · rw [fetchRegistrations_student u h2]
          cases dbOk with
          | true => rw [if_pos rfl]; exact hGetWhere u.id
          | false => rw [if_neg (by simp)]; exact hst
        · rw [fetchRegistrations_otherRole u h1 h2]
          intro r hr
          exact absurd hr (List.not_mem_nil r)

lemma registerForEvent_inv (authLoading writeOk fetchOk : Bool) (user : Option User)
    (eventId now : String) (st : StoreState) (db : Db)
    (hst : ∀ r ∈ st.registrations, RegInv r) (hdb : ∀ p ∈ db, RegInv p.2) :
    (∀ r ∈ (registerForEvent authLoading user eventId now writeOk fetchOk st db).1.registrations,
      RegInv r) ∧
    (∀ p ∈ (registerForEvent authLoading user eventId now writeOk fetchOk st db).2,
      RegInv p.2) := by
  rcases user with _ | u
  · exact ⟨hst, hdb⟩
  · by_cases hdup :
        (st.registrations.any fun reg => reg.id == u.id ++ "-" ++ eventId) = true
    · have hres : registerForEvent authLoading (some u) eventId now writeOk fetchOk st db
          = (st, db) := by
        simp [registerForEvent, hdup]
      rw [hres]
      exact ⟨hst, hdb⟩
    · cases writeOk with
      | false =>
        have hres : registerForEvent authLoading (some u) eventId now false fetchOk st db
            = (st, db) := by
          simp [registerForEvent, hdup]
        rw [hres]
        exact ⟨hst, hdb⟩
      | true =>
        have hres : registerForEvent authLoading (some u) eventId now true fetchOk st db =
            (fetchRegistrations authLoading (some u) fetchOk
              (dbSetDoc db (u.id ++ "-" ++ eventId) (newRegistration u eventId now)) st,
             dbSetDoc db (u.id ++ "-" ++ eventId) (newRegistration u eventId now)) := by
          simp [registerForEvent, hdup]
        rw [hres]
        have hdb2 := dbSetDoc_inv db (u.id ++ "-" ++ eventId)
          (newRegistration u eventId now) hdb (newRegistration_inv u eventId now)
        exact ⟨fetchRegistrations_inv authLoading fetchOk (some u) _ st hst hdb2, hdb2⟩

lemma markAttendance_inv (authLoading updateOk fetchOk : Bool) (user : Option User)
    (registrationId now : String) (st : StoreState) (db : Db)
    (hst : ∀ r ∈ st.registrations, RegInv r) (hdb : ∀ p ∈ db, RegInv p.2) :
    (∀ r ∈ (markAttendance authLoading user registrationId now updateOk fetchOk st db).1.registrations,
      RegInv r) ∧
    (∀ p ∈ (markAttendance authLoading user registrationId now updateOk fetchOk st db).2,
      RegInv p.2) := by
  cases updateOk with
  | false => exact ⟨hst, hdb⟩
  | true =>
    by_cases hmem : (db.any fun p => p.1 == registrationId) = true
    · have hdb2 := dbPatched_inv db registrationId now hdb
      by_cases horg : userRole user = some "organizer"
      · have hres : markAttendance authLoading user registrationId now true fetchOk st db =
            (fetchRegistrations authLoading user fetchOk (dbPatched db registrationId now) st,
             dbPatched db registrationId now) := by
          unfold markAttendance
          rw [dbUpdateDoc_eq_some db registrationId now hmem]
          simp [horg]
        rw [hres]
        exact ⟨fetchRegistrations_inv authLoading fetchOk user _ st hst hdb2, hdb2⟩
      · have hres : markAttendance authLoading user registrationId now true fetchOk st db =
            ({ st with
                registrations := st.registrations.map fun reg =>
                  if reg.id == registrationId then
                    { reg with checkedIn := true, checkedInAt := some now }
                  else reg },
             dbPatched db registrationId now) := by
          unfold markAttendance
          rw [dbUpdateDoc_eq_some db registrationId now hmem]
          simp [horg]
        rw [hres]
        refine ⟨?_, hdb2⟩
        intro r hr
        rcases List.mem_map.mp hr with ⟨q, hq, rfl⟩
        by_cases hqk : (q.id == registrationId) = true
        · simp only [if_pos hqk]
          exact RegInv_patch q now
        · simp only [if_neg hqk]
          exact hst q hq
    · have hres : markAttendance authLoading user registrationId now true fetchOk st db
          = (st, db) := by
        unfold markAttendance
        rw [dbUpdateDoc_eq_none db registrationId now (Bool.not_eq_true _ ▸ hmem)]
        rfl
      rw [hres]
      exact ⟨hst, hdb⟩

/-- C7: the record-level invariant (checkedIn is false exactly when
checkedInAt is absent) holds for the record registerForEvent creates (built
with checkedIn false and no checkedInAt) and for any record markAttendance
patches (checkedIn and checkedInAt set together), and it is preserved by
every store operation: when it holds for every working-set record and every
stored document, it still holds for all of them after a fetch, after
registerForEvent, and after markAttendance. -/
theorem reg_invariant_preserved (authLoading dbOk writeOk updateOk fetchOk : Bool)
    (user : Option User) (eventId registrationId now : String)
    (st : StoreState) (db : Db)
    (hst : ∀ r ∈ st.registrations, RegInv r) (hdb : ∀ p ∈ db, RegInv p.2) :
    (∀ u e t, RegInv (newRegistration u e t) ∧
      (newRegistration u e t).checkedIn = false ∧
      (newRegistration u e t).checkedInAt = none) ∧
    (∀ (r : Registration) (t : String),
      RegInv { r with checkedIn := true, checkedInAt := some t }) ∧
    (∀ r ∈ (fetchRegistrations authLoading user dbOk db st).registrations, RegInv r) ∧
    (∀ r ∈ (registerForEvent authLoading user eventId now writeOk fetchOk st db).1.registrations,
      RegInv r) ∧
    (∀ p ∈ (registerForEvent authLoading user eventId now writeOk fetchOk st db).2,
      RegInv p.2) ∧
    (∀ r ∈ (markAttendance authLoading user registrationId now updateOk fetchOk st db).1.registrations,
      RegInv r) ∧
    (∀ p ∈ (markAttendance authLoading user registrationId now updateOk fetchOk st db).2,
      RegInv p.2) := by
  obtain ⟨h1, h2⟩ :=
    registerForEvent_inv authLoading writeOk fetchOk user eventId now st db hst hdb
  obtain ⟨h3, h4⟩ :=
    markAttendance_inv authLoading updateOk fetchOk user registrationId now st db hst hdb
  exact ⟨fun u e t => ⟨newRegistration_inv u e t, rfl, rfl⟩,
    fun r t => RegInv_patch r t,
    fetchRegistrations_inv authLoading dbOk user db st hst hdb, h1, h2, h3, h4⟩

/-- Witness for C7: the record a student check-in leaves in the working set
still satisfies the invariant. -/
theorem reg_invariant_preserved_witness :
    RegInv { regU1E1 with checkedIn := true, checkedInAt := some "t1" } :=
  (reg_invariant_preserved false true true true true (some studentU1)
    "e1" "u1-e1" "t1" stOne dbOne (by decide) (by decide)).2.2.2.2.2.1
    { regU1E1 with checkedIn := true, checkedInAt := some "t1" } (by decide)

lemma dbGetAll_filter_id (l : Db) (rid : String)
    (hwf2 : ∀ p ∈ l, p.2.id = p.1) :
    (dbGetAll l).filter (fun r => r.id == rid) =
      (l.filter fun p => p.1 == rid).map Prod.snd := by
  unfold dbGetAll
  rw [List.filter_map]
  congr 1
  apply List.filter_congr
  intro p hp
  show (p.2.id == rid) = (p.1 == rid)
  rw [hwf2 p hp]

lemma dbGetWhere_filter_id (l : Db) (uid rid : String)
    (hwf2 : ∀ p ∈ l, p.2.id = p.1) :
    (dbGetWhere l uid).filter (fun r => r.id == rid) =
      ((l.filter fun p => p.1 == rid).filter fun p => p.2.userId == uid).map Prod.snd := by
  unfold dbGetWhere
  rw [List.filter_map]
  congr 1
  rw [List.filter_filter, List.filter_filter]
  apply List.filter_congr
  intro p hp
  show ((p.2.id == rid) && (p.2.userId == uid)) = ((p.2.userId == uid) && (p.1 == rid))
  rw [hwf2 p hp, Bool.and_comm]

lemma fetch_filter_single (u : User) (h : u.role = "student" ∨ u.role = "organizer")
    (db2 : Db) (st : StoreState) (rid : String) (v : Registration)
    (hwf2 : ∀ p ∈ db2, p.2.id = p.1)
    (hfilter : (db2.filter fun p => p.1 == rid) = [(rid, v)])
    (huid : v.userId = u.id) :
    ((fetchRegistrations false (some u) true db2 st).registrations.filter
      fun reg => reg.id == rid) = [v] := by
  rcases h with h | h
  · rw [fetchRegistrations_student u h, if_pos rfl]
    show (dbGetWhere db2 u.id).filter (fun reg => reg.id == rid) = [v]
    rw [dbGetWhere_filter_id db2 u.id rid hwf2, hfilter]
    simp [huid]
  · rw [fetchRegistrations_organizer u h, if_pos rfl]
    show (dbGetAll db2).filter (fun reg => reg.id == rid) = [v]
    rw [dbGetAll_filter_id db2 rid hwf2, hfilter]
    rfl

/-- C2: registerForEvent is idempotent on the deterministic id: a call whose
id userId-dash-eventId already appears in the local working set returns
immediately, changing neither state nor database, and for a student or
organizer identity over a well-formed database, two successive successful
calls starting from a working set without the record make the second call a
no-op and leave exactly one database document and exactly one working-set
record carrying that id. -/
theorem registerForEvent_idempotent (u : User) (eventId now now2 : String)
    (st : StoreState) (db : Db)
    (hwf : DbWF db)
    (hrole : u.role = "student" ∨ u.role = "organizer")
    (hnew : (st.registrations.any fun reg => reg.id == u.id ++ "-" ++ eventId) = false) :
    (∀ (st2 : StoreState) (db2 : Db) (aL w f : Bool),
      (st2.registrations.any fun reg => reg.id == u.id ++ "-" ++ eventId) = true →
      registerForEvent aL (some u) eventId now2 w f st2 db2 = (st2, db2)) ∧
    registerForEvent false (some u) eventId now2 true true
        (registerForEvent false (some u) eventId now true true st db).1
        (registerForEvent false (some u) eventId now true true st db).2
      = registerForEvent false (some u) eventId now true true st db ∧
    ((registerForEvent false (some u) eventId now true true st db).2.filter
        fun p => p.1 == u.id ++ "-" ++ eventId).length = 1 ∧
    ((registerForEvent false (some u) eventId now true true st db).1.registrations.filter
        fun reg => reg.id == u.id ++ "-" ++ eventId).length = 1 := by
  have hdupgen : ∀ (st2 : StoreState) (db2 : Db) (aL w f : Bool),
      (st2.registrations.any fun reg => reg.id == u.id ++ "-" ++ eventId) = true →
      registerForEvent aL (some u) eventId now2 w f st2 db2 = (st2, db2) := by
    intro st2 db2 aL w f hdup
    simp [registerForEvent, hdup]
  have hres : registerForEvent false (some u) eventId now true true st db =
      (fetchRegistrations false (some u) true
        (dbSetDoc db (u.id ++ "-" ++ eventId) (newRegistration u eventId now)) st,
       dbSetDoc db (u.id ++ "-" ++ eventId) (newRegistration u eventId now)) := by
    simp [registerForEvent, hnew]
  have h1regs : (registerForEvent false (some u) eventId now true true st db).1.registrations
      = (fetchRegistrations false (some u) true
          (dbSetDoc db (u.id ++ "-" ++ eventId) (newRegistration u eventId now)) st).registrations := by
    rw [hres]
  have h2db : (registerForEvent false (some u) eventId now true true st db).2
      = dbSetDoc db (u.id ++ "-" ++ eventId) (newRegistration u eventId now) := by
    rw [hres]
  have hwf2 : DbWF (dbSetDoc db (u.id ++ "-" ++ eventId) (newRegistration u eventId now)) :=
    DbWF_dbSetDoc db (u.id ++ "-" ++ eventId) (newRegistration u eventId now) hwf rfl
  have hfilter := dbSetDoc_filter_key db (u.id ++ "-" ++ eventId)
    (newRegistration u eventId now) hwf.1
  have hlist := fetch_filter_single u hrole
    (dbSetDoc db (u.id ++ "-" ++ eventId) (newRegistration u eventId now)) st
    (u.id ++ "-" ++ eventId) (newRegistration u eventId now) hwf2.2 hfilter rfl
  have hany2 : ((registerForEvent false (some u) eventId now true true st db).1.registrations.any
      fun reg => reg.id == u.id ++ "-" ++ eventId) = true := by
    rw [h1regs]
    have hmem0 : newRegistration u eventId now ∈
        ((fetchRegistrations false (some u) true
          (dbSetDoc db (u.id ++ "-" ++ eventId) (newRegistration u eventId now)) st).registrations.filter
          fun reg => reg.id == u.id ++ "-" ++ eventId) := by
      rw [hlist]
      exact List.mem_singleton_self _
    refine List.any_eq_true.mpr ⟨newRegistration u eventId now,
      (List.mem_filter.mp hmem0).1, ?_⟩
    exact (List.mem_filter.mp hmem0).2
  refine ⟨hdupgen, ?_, ?_, ?_⟩
  · rw [hdupgen (registerForEvent false (some u) eventId now true true st db).1
      (registerForEvent false (some u) eventId now true true st db).2 false true true hany2]
  · rw [h2db, hfilter]
    rfl
  · rw [h1regs, hlist]
    rfl

/-- Witness for C2: registering student u1 for event e1 twice against an
empty store and database leaves the second call a no-op and exactly one
stored document with the deterministic key. -/
theorem registerForEvent_idempotent_witness :
    registerForEvent false (some studentU1) "e1" "d2" true true
        (registerForEvent false (some studentU1) "e1" "d1" true true stEmpty ([] : Db)).1
        (registerForEvent false (some studentU1) "e1" "d1" true true stEmpty ([] : Db)).2
      = registerForEvent false (some studentU1) "e1" "d1" true true stEmpty ([] : Db) ∧
    ((registerForEvent false (some studentU1) "e1" "d1" true true stEmpty ([] : Db)).2.filter
        fun p => p.1 == studentU1.id ++ "-" ++ "e1").length = 1 :=
  ⟨(registerForEvent_idempotent studentU1 "e1" "d1" "d2" stEmpty ([] : Db)
      ⟨List.nodup_nil, fun p hp => absurd hp (List.not_mem_nil p)⟩ (Or.inl rfl) rfl).2.1,
   (registerForEvent_idempotent studentU1 "e1" "d1" "d2" stEmpty ([] : Db)
      ⟨List.nodup_nil, fun p hp => absurd hp (List.not_mem_nil p)⟩ (Or.inl rfl) rfl).2.2.1⟩
